import Mathlib

/-!
Verification of the firefox-tab-extractor session pipeline.

The repository's visible sources are its CLI, tests, packaging and examples;
the decoder/model module itself is not present, so the definitions below are
modelled from the specification (the framed mozLz4 container, the session
document walker, the tab/window models and the aggregation helpers), with the
behaviour pinned by the test suite where the spec is silent.
-/

/-- Modelled from the spec: the error taxonomy of §7 (the decoder, parser and
locator modules carrying these exception classes are missing from the visible
sources). `decompressionError` stands for `LZ4DecompressionError`. -/
inductive ExtractorError where
  | profileNotFoundError
  | formatError
  | decompressionError
  | sessionDataError
  | noTabsFoundError
deriving DecidableEq

/-- The fixed 8-byte magic tag "mozLz40\0" of the framed container. -/
def magic : List Nat := [109, 111, 122, 76, 122, 52, 48, 0]

/-- Little-endian uint32 read of the first four bytes of a list (each byte
taken mod 256, as a byte read from a file). -/
def le32 (bs : List Nat) : Nat :=
  bs.getD 0 0 % 256 + 256 * (bs.getD 1 0 % 256) + 65536 * (bs.getD 2 0 % 256)
    + 16777216 * (bs.getD 3 0 % 256)

/-- Little-endian uint32 encoding of a natural number as four bytes. -/
def le32Bytes (n : Nat) : List Nat :=
  [n % 256, n / 256 % 256, n / 65536 % 256, n / 16777216 % 256]

/-- Read an LZ4 extension-length run: bytes of 255 accumulate, a byte
below 255 terminates the run. -/
def readExt : List Nat → Option (Nat × List Nat)
  | [] => none
  | b :: rest =>
    if b = 255 then
      match readExt rest with
      | none => none
      | some (n, r) => some (255 + n, r)
    else some (b, rest)

/-- LZ4 extension-length encoding: 255-bytes then a final byte below 255. -/
def extBytes (n : Nat) : List Nat :=
  if n < 255 then [n] else 255 :: extBytes (n - 255)
termination_by n
decreasing_by omega

/-- Read the literal-run length of a sequence from its token's high nibble,
with extension bytes when the nibble is 15. -/
def readLitLen (token : Nat) (rest : List Nat) : Option (Nat × List Nat) :=
  let l := token / 16
  if l = 15 then
    match readExt rest with
    | none => none
    | some (e, r) => some (15 + e, r)
  else some (l, rest)

/-- Read the match length of a sequence from its token's low nibble, with
extension bytes when the nibble is 15 (the +4 bias is added by the caller). -/
def readMatchLen (token : Nat) (rest : List Nat) : Option (Nat × List Nat) :=
  let m := token % 16
  if m = 15 then
    match readExt rest with
    | none => none
    | some (e, r) => some (15 + e, r)
  else some (m, rest)

/-- Byte-by-byte overlapping match copy from `offset` bytes before the end of
the output, as the LZ4 block format requires. -/
def copyMatch : List Nat → Nat → Nat → List Nat
  | out, _, 0 => out
  | out, offset, n + 1 =>
    copyMatch (out ++ [out.getD (out.length - offset) 0]) offset n

/-- Modelled from the spec: the LZ4 block decoder loop (the repository relies
on the third-party `lz4` package, absent from the visible sources; §9 asks for
a self-contained minimal decoder). One sequence per iteration: token, literal
run, then either end of input (final literals-only sequence) or a 2-byte
little-endian offset and a match copy. `none` signals a malformed payload. -/
def lz4Loop : Nat → List Nat → List Nat → Option (List Nat)
  | 0, _, _ => none
  | fuel + 1, input, out =>
    match input with
    | [] => some out
    | token :: rest =>
      match readLitLen token rest with
      | none => none
      | some (litLen, r1) =>
        if litLen ≤ r1.length then
          match r1.drop litLen with
          | [] => some (out ++ r1.take litLen)
          | [_] => none
          | o1 :: o2 :: r3 =>
            let offset := o1 + 256 * o2
            if offset = 0 then none
            else if (out ++ r1.take litLen).length < offset then none
            else
              match readMatchLen token r3 with
              | none => none
              | some (mLen, r4) =>
                lz4Loop fuel r4 (copyMatch (out ++ r1.take litLen) offset (mLen + 4))
        else none

/-- Modelled from the spec: decompress one LZ4 block. Fuel is the input length
plus one; every iteration consumes at least the token byte. -/
def lz4_decompress (input : List Nat) : Option (List Nat) :=
  lz4Loop (input.length + 1) input []

/-- Modelled from the spec: a minimal LZ4 block compressor (§9: the test
suite requires a compressor to build round-trip fixtures). It emits a single
literals-only sequence. -/
def lz4_compress (data : List Nat) : List Nat :=
  if data.length < 15 then data.length * 16 :: data
  else 240 :: (extBytes (data.length - 15) ++ data)

/-- Modelled from the spec: the framed mozLz4 container decoder (§4.1).
Checks the 12-byte header (magic + declared length), inflates the payload,
and insists the inflated size equals the declared size. -/
def mozlz4_decompress (b : List Nat) : Except ExtractorError (List Nat) :=
  if b.length < 12 then .error .formatError
  else if b.take 8 = magic then
    match lz4_decompress (b.drop 12) with
    | none => .error .decompressionError
    | some out =>
      if out.length = le32 ((b.drop 8).take 4) then .ok out
      else .error .decompressionError
  else .error .formatError

/-- Modelled from the spec: the framed mozLz4 container encoder used by the
round-trip fixtures: magic, little-endian length, compressed block. -/
def mozlz4_compress (x : List Nat) : List Nat :=
  magic ++ (le32Bytes x.length ++ lz4_compress x)

/-- Modelled from the spec: one navigation entry of a tab's history (§6
document shape: `{"title": str, "url": str}`). -/
structure NavEntry where
  title : String
  url : String
deriving DecidableEq

/-- Modelled from the spec: one tab entry of the session document (§6): an
optional embedded index, the navigation entries, and the optional
`lastAccessed`, `pinned` and `hidden` fields. -/
structure SessionTab where
  index : Option Int
  entries : List NavEntry
  lastAccessed : Option Nat
  pinned : Option Bool
  hidden : Option Bool
deriving DecidableEq

/-- Modelled from the spec: one window object of the session document. -/
structure SessionWindow where
  tabs : List SessionTab
deriving DecidableEq

/-- Modelled from the spec: the parsed session document: the single required
top-level field, a sequence of window objects. -/
structure SessionDoc where
  windows : List SessionWindow
deriving DecidableEq

/-- Modelled from the spec: the Tab value type (§3). -/
structure Tab where
  window_index : Nat
  tab_index : Nat
  title : String
  url : String
  last_accessed : Nat
  last_accessed_readable : String
  pinned : Bool
  hidden : Bool
deriving DecidableEq

/-- Modelled from the spec: the human-readable rendering of a millisecond
timestamp; epoch zero renders as the implementation-defined no-data sentinel
(here the empty string), any other value as a rendering derived from it. -/
def renderTimestamp (ms : Nat) : String :=
  if ms = 0 then String.mk [] else toString ms

/-- Scan for the first scheme separator "://" and return the remainder. -/
def afterScheme : List Char → Option (List Char)
  | [] => none
  | c :: rest =>
    match c, rest with
    | ':', '/' :: '/' :: r => some r
    | _, _ => afterScheme rest

/-- Modelled from the spec: domain derivation (§3): the network-location
component of the URL — the text after the scheme separator up to the first
path, query or fragment delimiter; an unparsable URL yields an absent domain.
`hostOf` reads the host from the text following the scheme separator. -/
def hostOf (rest : List Char) : Option String :=
  match rest.takeWhile (fun c => !(c == '/' || c == '?' || c == '#')) with
  | [] => none
  | c :: cs => some (String.mk (c :: cs))

def extractDomain (url : String) : Option String :=
  match afterScheme url.toList with
  | none => none
  | some rest => hostOf rest

/-- The derived domain of a Tab. -/
def Tab.domain (t : Tab) : Option String :=
  extractDomain t.url

/-- Modelled from the spec: construction of one Tab from a tab entry of the
session document (§4.2): effective title and URL come from the last navigation
entry; a tab entry with no navigation entries is skipped; absent `pinned` and
`hidden` default to false, absent `lastAccessed` to 0. -/
def mkTab (w i : Nat) (st : SessionTab) : Option Tab :=
  match st.entries.getLast? with
  | none => none
  | some e =>
    some { window_index := w, tab_index := i, title := e.title, url := e.url,
           last_accessed := st.lastAccessed.getD 0,
           last_accessed_readable := renderTimestamp (st.lastAccessed.getD 0),
           pinned := st.pinned.getD false, hidden := st.hidden.getD false }

/-- Pair each element with its position counted from `k`. -/
def withIdxFrom (k : Nat) : List α → List (Nat × α)
  | [] => []
  | a :: as => (k, a) :: withIdxFrom (k + 1) as

/-- Modelled from the spec: the tabs of one window, visited in document order
and numbered sequentially from 1 (§4.2), entries-less tabs skipped. -/
def tabsOfWindow (w : Nat) (tabs : List SessionTab) : List Tab :=
  (withIdxFrom 1 tabs).filterMap (fun p => mkTab w p.1 p.2)

/-- Modelled from the spec: the traversal of §4.2: windows in document order,
window indices assigned sequentially from 1 by visitation order, ignoring any
index embedded in the source document. -/
def extractTabs (s : SessionDoc) : List Tab :=
  (withIdxFrom 1 s.windows).flatMap (fun p => tabsOfWindow p.1 p.2.tabs)

/-- Modelled from the spec: the parse stage around the traversal (§4.2): a
document that failed structural parsing (modelled as `none`) raises
SessionDataError; a structurally valid document that yields zero tabs raises
NoTabsFoundError; otherwise the tabs are returned in traversal order. -/
def parseSession (d : Option SessionDoc) : Except ExtractorError (List Tab) :=
  match d with
  | none => .error .sessionDataError
  | some s =>
    let ts := extractTabs s
    if ts.isEmpty then .error .noTabsFoundError else .ok ts

/-- Rewrite every embedded per-tab index of a session document. -/
def reindexDoc (f : Option Int → Option Int) (s : SessionDoc) : SessionDoc :=
  { windows := s.windows.map (fun w =>
      { tabs := w.tabs.map (fun st => { st with index := f st.index }) }) }

/-- Rewrite one tab entry's embedded index. -/
def reindexTab (f : Option Int → Option Int) (st : SessionTab) : SessionTab :=
  { st with index := f st.index }

/-- A tab entry with an empty entries array (a placeholder slot). -/
def emptyEntriesTab : SessionTab := SessionTab.mk none [] none none none

/-- A tab entry with two historical navigation entries; the second one is the
current navigation. -/
def twoEntriesTab : SessionTab :=
  SessionTab.mk none
    [NavEntry.mk ("Old") ("https://old.example.org"), NavEntry.mk ("B") ("https://b.com")]
    none none none

/-- Keep the first occurrence of every value, in first-seen order (the
insertion-order grouping key sequence of a dictionary-based single pass). -/
def firstSeen {α : Type} [DecidableEq α] : List α → List α
  | [] => []
  | a :: as => a :: firstSeen (as.filter (fun b => b != a))
termination_by l => l.length
decreasing_by
  simp only [List.length_cons]
  exact Nat.lt_succ_of_le (List.length_filter_le _ _)

/-- Modelled from the spec: the Window value type (§3): a window index and the
owned ordered sequence of its tabs. -/
structure Window where
  window_index : Nat
  tabs : List Tab
deriving DecidableEq

/-- Derived tab count of a window. -/
def Window.tab_count (w : Window) : Nat := w.tabs.length

/-- Derived subset of pinned tabs of a window. -/
def Window.pinned_tabs (w : Window) : List Tab := w.tabs.filter (fun t => t.pinned)

/-- Derived subset of visible (non-hidden) tabs of a window. -/
def Window.visible_tabs (w : Window) : List Tab := w.tabs.filter (fun t => !t.hidden)

/-- Modelled from the spec: `group_into_windows` (§4.3): stable partition of a
flat Tab sequence into Window records keyed by window index, first-seen order
of indices, within-window document order of tabs. -/
def get_windows (tabs : List Tab) : List Window :=
  (firstSeen (tabs.map (fun t => t.window_index))).map
    (fun w => Window.mk w (tabs.filter (fun t => t.window_index == w)))

/-- Modelled from the spec: the Statistics value object (§3). -/
structure Statistics where
  total_tabs : Nat
  total_windows : Nat
  pinned_tabs : Nat
  hidden_tabs : Nat
  visible_tabs : Nat
  domains : List String
deriving DecidableEq

/-- Modelled from the spec: `compute_statistics` (§4.3): total, pinned, hidden
and visible counts plus the set of distinct non-empty domains (visible means
non-hidden; an absent domain contributes nothing). -/
def get_statistics (tabs : List Tab) : Statistics :=
  { total_tabs := tabs.length
    total_windows := (get_windows tabs).length
    pinned_tabs := (tabs.filter (fun t => t.pinned)).length
    hidden_tabs := (tabs.filter (fun t => t.hidden)).length
    visible_tabs := (tabs.filter (fun t => !t.hidden)).length
    domains := firstSeen (tabs.filterMap Tab.domain) }

/-- Modelled from the spec: the filesystem facts the profile locator consults
(§6 collaborator; the extractor module itself is missing from the visible
sources, and the private locator's behaviour is pinned by the test suite:
directory-existence checks and profile-directory globbing). -/
structure FileSystem where
  dirExists : String → Bool
  globProfiles : String → List String

/-- The platform's Firefox configuration directory consulted by the locator. -/
def firefoxRoot : String := ".mozilla/firefox"

/-- Modelled from the spec: the private profile locator. As pinned by the test
suite, when the platform's Firefox directory does not exist it returns the
pair of absent values rather than raising; when a profile directory is found
it returns the profile path and the recovery-file path inside it. -/
def findFirefoxProfile (fs : FileSystem) : Option String × Option String :=
  if fs.dirExists firefoxRoot then
    match fs.globProfiles firefoxRoot with
    | [] => (none, none)
    | p :: _ => (some p, some (p ++ "/sessionstore-backups/recovery.jsonlz4"))
  else (none, none)

/-- Modelled from the spec: the extractor object's own state, as pinned by the
test suite: a freshly constructed extractor carries an optional profile path
(absent when not supplied) and no recovery file yet. -/
structure FirefoxTabExtractor where
  profile_path : Option String
  recovery_file : Option String

/-- Modelled from the spec: construction of the extractor: the supplied
profile path (or none) is stored and the recovery file starts absent. -/
def FirefoxTabExtractor.make (pp : Option String) : FirefoxTabExtractor :=
  { profile_path := pp, recovery_file := none }

theorem readExt_extBytes (m : Nat) :
    ∀ rest : List Nat, readExt (extBytes m ++ rest) = some (m, rest) := by
  induction m using Nat.strong_induction_on with
  | _ m ih =>
    intro rest
    rw [extBytes]
    by_cases h : m < 255
    · have hne : ¬ (m = 255) := by omega
      simp [h, readExt, hne]
    · have h255 : 255 + (m - 255) = m := by omega
      simp [h, readExt, ih (m - 255) (by omega), h255]

theorem le32_lt (bs : List Nat) : le32 bs < 4294967296 := by
  unfold le32
  omega

theorem le32_le32Bytes (n : Nat) (h : n < 4294967296) : le32 (le32Bytes n) = n := by
  have h1 : le32 (le32Bytes n) =
      n % 256 % 256 + 256 * (n / 256 % 256 % 256) + 65536 * (n / 65536 % 256 % 256)
        + 16777216 * (n / 16777216 % 256 % 256) := rfl
  rw [h1]
  omega

theorem lz4_roundtrip (x : List Nat) : lz4_decompress (lz4_compress x) = some x := by
  unfold lz4_decompress lz4_compress
  by_cases h : x.length < 15
  · simp only [if_pos h, List.length_cons, lz4Loop, readLitLen]
    rw [Nat.mul_div_cancel _ (by omega : 0 < 16)]
    rw [if_neg (by omega : ¬ x.length = 15)]
    simp
  · simp only [if_neg h, List.length_cons, lz4Loop, readLitLen]
    have h240 : (240 : Nat) / 16 = 15 := by norm_num
    have h15 : 15 + (x.length - 15) = x.length := by omega
    simp [h240, readExt_extBytes, h15]

theorem decode_encode (x : List Nat) (hx : x.length < 4294967296) :
    mozlz4_decompress (mozlz4_compress x) = Except.ok x := by
  unfold mozlz4_decompress mozlz4_compress
  have hlen : (magic ++ (le32Bytes x.length ++ lz4_compress x)).length
      = 12 + (lz4_compress x).length := by
    simp [magic, le32Bytes]
    omega
  rw [hlen]
  rw [if_neg (by omega)]
  rw [show (magic ++ (le32Bytes x.length ++ lz4_compress x)).take 8 = magic from rfl]
  rw [if_pos rfl]
  rw [show (magic ++ (le32Bytes x.length ++ lz4_compress x)).drop 12 = lz4_compress x from rfl]
  rw [show ((magic ++ (le32Bytes x.length ++ lz4_compress x)).drop 8).take 4
      = le32Bytes x.length from rfl]
  simp [lz4_roundtrip, le32_le32Bytes x.length hx]

/-- Claim C2: for every valid framed container, decompressing it, re-compressing
the result with the same block compressor, and decompressing again yields a
byte buffer identical to the first decompressed buffer (round-trip law). -/
theorem claimC2_roundtrip (b x : List Nat) (h : mozlz4_decompress b = Except.ok x) :
    mozlz4_decompress (mozlz4_compress x) = Except.ok x := by
  apply decode_encode
  unfold mozlz4_decompress at h
  by_cases h12 : b.length < 12
  · rw [if_pos h12] at h
    exact Except.noConfusion h
  · rw [if_neg h12] at h
    by_cases hm : b.take 8 = magic
    · rw [if_pos hm] at h
      cases hlz : lz4_decompress (b.drop 12) with
      | none =>
        rw [hlz] at h
        exact Except.noConfusion h
      | some out =>
        rw [hlz] at h
        have h2 : (if out.length = le32 ((b.drop 8).take 4) then Except.ok out
            else Except.error ExtractorError.decompressionError)
            = (Except.ok x : Except ExtractorError (List Nat)) := h
        by_cases hd : out.length = le32 ((b.drop 8).take 4)
        · rw [if_pos hd] at h2
          injection h2 with h'
          rw [← h', hd]
          exact le32_lt _
        · rw [if_neg hd] at h2
          exact Except.noConfusion h2
    · rw [if_neg hm] at h
      exact Except.noConfusion h

/-- Witness for C2: the concrete container holding the empty payload decodes to
the empty buffer, and the round trip through the compressor preserves it. -/
theorem claimC2_roundtrip_witness :
    mozlz4_decompress [109, 111, 122, 76, 122, 52, 48, 0, 0, 0, 0, 0, 0] = Except.ok []
    ∧ mozlz4_decompress (mozlz4_compress []) = Except.ok [] :=
  ⟨rfl, claimC2_roundtrip [109, 111, 122, 76, 122, 52, 48, 0, 0, 0, 0, 0, 0] [] rfl⟩

/-- Claim C3: the decoder fails with FormatError whenever the buffer is shorter
than 12 bytes or its first 8 bytes differ from the magic tag; being a total
function of the byte list it can neither panic nor read out of bounds. -/
theorem claimC3_header_guard (b : List Nat) (h : b.length < 12 ∨ b.take 8 ≠ magic) :
    mozlz4_decompress b = Except.error ExtractorError.formatError := by
  unfold mozlz4_decompress
  rcases h with h | h
  · rw [if_pos h]
  · by_cases h12 : b.length < 12
    · rw [if_pos h12]
    · rw [if_neg h12, if_neg h]

/-- Witness for C3: the empty buffer is shorter than 12 bytes and is rejected
with FormatError. -/
theorem claimC3_header_guard_witness :
    ([] : List Nat).length < 12
    ∧ mozlz4_decompress [] = Except.error ExtractorError.formatError :=
  ⟨by decide, claimC3_header_guard [] (Or.inl (by decide))⟩

/-- Claim C4: with a valid header, the decoder either returns exactly the number
of bytes declared by the little-endian uint32 at offsets 8 to 11, or fails with
DecompressionError. -/
theorem claimC4_declared_length (b : List Nat) (h12 : 12 ≤ b.length)
    (hm : b.take 8 = magic) :
    (∃ x, mozlz4_decompress b = Except.ok x ∧ x.length = le32 ((b.drop 8).take 4))
    ∨ mozlz4_decompress b = Except.error ExtractorError.decompressionError := by
  unfold mozlz4_decompress
  rw [if_neg (by omega), if_pos hm]
  cases hlz : lz4_decompress (b.drop 12) with
  | none => exact Or.inr rfl
  | some out =>
    by_cases hd : out.length = le32 ((b.drop 8).take 4)
    · refine Or.inl ⟨out, ?_, hd⟩
      show (if out.length = le32 ((b.drop 8).take 4) then Except.ok out
          else Except.error ExtractorError.decompressionError)
          = (Except.ok out : Except ExtractorError (List Nat))
      rw [if_pos hd]
    · refine Or.inr ?_
      show (if out.length = le32 ((b.drop 8).take 4) then Except.ok out
          else Except.error ExtractorError.decompressionError)
          = (Except.error ExtractorError.decompressionError
            : Except ExtractorError (List Nat))
      rw [if_neg hd]

/-- Witness for C4: a container whose declared length is 1 but whose payload
inflates to 0 bytes has a valid header and ends in DecompressionError. -/
theorem claimC4_declared_length_witness :
    12 ≤ ([109, 111, 122, 76, 122, 52, 48, 0, 1, 0, 0, 0, 0] : List Nat).length
    ∧ ([109, 111, 122, 76, 122, 52, 48, 0, 1, 0, 0, 0, 0] : List Nat).take 8 = magic
    ∧ ((∃ x, mozlz4_decompress [109, 111, 122, 76, 122, 52, 48, 0, 1, 0, 0, 0, 0]
          = Except.ok x
          ∧ x.length = le32 ((([109, 111, 122, 76, 122, 52, 48, 0, 1, 0, 0, 0, 0]
              : List Nat).drop 8).take 4))
      ∨ mozlz4_decompress [109, 111, 122, 76, 122, 52, 48, 0, 1, 0, 0, 0, 0]
          = Except.error ExtractorError.decompressionError) :=
  ⟨by decide, by decide,
    claimC4_declared_length [109, 111, 122, 76, 122, 52, 48, 0, 1, 0, 0, 0, 0]
      (by decide) (by decide)⟩

theorem withIdxFrom_le {α : Type} (l : List α) :
    ∀ (k : Nat) (p : Nat × α), p ∈ withIdxFrom k l → k ≤ p.1 := by
  induction l with
  | nil => intro k p h; cases h
  | cons a as ih =>
    intro k p h
    rcases List.mem_cons.mp h with h | h
    · subst h; exact Nat.le_refl k
    · exact Nat.le_of_succ_le (ih (k + 1) p h)

theorem withIdxFrom_mem_of_getElem {α : Type} (l : List α) :
    ∀ (k j : Nat) (a : α), l[j]? = some a → (k + j, a) ∈ withIdxFrom k l := by
  induction l with
  | nil => intro k j a h; simp at h
  | cons x xs ih =>
    intro k j a h
    cases j with
    | zero =>
      rw [List.getElem?_cons_zero] at h
      injection h with h'
      subst h'
      exact List.mem_cons_self _ _
    | succ j =>
      rw [List.getElem?_cons_succ] at h
      have hmem := ih (k + 1) j a h
      have harith : k + (j + 1) = k + 1 + j := by omega
      rw [withIdxFrom, harith]
      exact List.mem_cons_of_mem _ hmem

theorem withIdxFrom_map {α β : Type} (g : α → β) (l : List α) :
    ∀ k : Nat, withIdxFrom k (l.map g) = (withIdxFrom k l).map (fun p => (p.1, g p.2)) := by
  induction l with
  | nil => intro k; rfl
  | cons a as ih =>
    intro k
    simp only [List.map_cons, withIdxFrom, ih (k + 1)]

theorem mkTab_eq_none_iff (w i : Nat) (st : SessionTab) :
    mkTab w i st = none ↔ st.entries = [] := by
  unfold mkTab
  cases h : st.entries.getLast? with
  | none => simpa using List.getLast?_eq_none_iff.mp h
  | some e =>
    simp only []
    constructor
    · intro hc; exact Option.noConfusion hc
    · intro he
      rw [he] at h
      exact Option.noConfusion (List.getLast?_eq_none_iff.mpr rfl ▸ h)

theorem mkTab_some_fields (w i : Nat) (st : SessionTab) (t : Tab)
    (h : mkTab w i st = some t) :
    t.window_index = w ∧ t.tab_index = i
    ∧ ∃ e, st.entries.getLast? = some e ∧ t.title = e.title ∧ t.url = e.url := by
  unfold mkTab at h
  cases hg : st.entries.getLast? with
  | none => rw [hg] at h; exact Option.noConfusion h
  | some e =>
    rw [hg] at h
    injection h with h'
    subst h'
    exact ⟨rfl, rfl, e, rfl, rfl, rfl⟩

theorem mem_extractTabs {s : SessionDoc} {t : Tab} :
    t ∈ extractTabs s ↔ ∃ p ∈ withIdxFrom 1 s.windows,
      ∃ q ∈ withIdxFrom 1 p.2.tabs, mkTab p.1 q.1 q.2 = some t := by
  simp [extractTabs, tabsOfWindow, List.mem_flatMap, List.mem_filterMap]

theorem tabsOfWindow_reindex (f : Option Int → Option Int) (w : Nat)
    (tabs : List SessionTab) :
    tabsOfWindow w (tabs.map (reindexTab f)) = tabsOfWindow w tabs := by
  unfold tabsOfWindow
  rw [withIdxFrom_map, List.filterMap_map]
  rfl

theorem extractTabs_reindex (f : Option Int → Option Int) (s : SessionDoc) :
    extractTabs (reindexDoc f s) = extractTabs s := by
  unfold extractTabs reindexDoc
  rw [withIdxFrom_map, List.flatMap_map]
  apply List.flatMap_congr
  intro p _
  show tabsOfWindow p.1 (p.2.tabs.map (reindexTab f)) = tabsOfWindow p.1 p.2.tabs
  exact tabsOfWindow_reindex f p.1 p.2.tabs

/-- Claim C1: window indices are assigned sequentially from 1 in document
visitation order and tab indices sequentially from 1 within each window,
ignoring any embedded index field; every constructed Tab therefore has
window index and tab index at least 1. -/
theorem claimC1_sequential_indices (s : SessionDoc) :
    (∀ t ∈ extractTabs s, 1 ≤ t.window_index ∧ 1 ≤ t.tab_index)
    ∧ (∀ f : Option Int → Option Int, extractTabs (reindexDoc f s) = extractTabs s)
    ∧ (∀ (i : Nat) (win : SessionWindow) (j : Nat) (st : SessionTab) (t : Tab),
        s.windows[i]? = some win → win.tabs[j]? = some st →
        mkTab (i + 1) (j + 1) st = some t →
        t.window_index = i + 1 ∧ t.tab_index = j + 1 ∧ t ∈ extractTabs s) := by
  refine ⟨?_, ?_, ?_⟩
  · intro t ht
    rcases mem_extractTabs.mp ht with ⟨p, hp, q, hq, hmk⟩
    have h1 := withIdxFrom_le _ 1 p hp
    have h2 := withIdxFrom_le _ 1 q hq
    obtain ⟨hw, hi, -⟩ := mkTab_some_fields _ _ _ _ hmk
    exact ⟨hw ▸ h1, hi ▸ h2⟩
  · intro f
    exact extractTabs_reindex f s
  · intro i win j st t hwin htab hmk
    obtain ⟨hw, hi, -⟩ := mkTab_some_fields _ _ _ _ hmk
    refine ⟨hw, hi, ?_⟩
    apply mem_extractTabs.mpr
    refine ⟨(1 + i, win), withIdxFrom_mem_of_getElem _ 1 i win hwin,
      (1 + j, st), withIdxFrom_mem_of_getElem _ 1 j st htab, ?_⟩
    have h1 : 1 + i = i + 1 := by omega
    have h2 : 1 + j = j + 1 := by omega
    rw [h1, h2]
    exact hmk

/-- Witness for C1: a concrete two-window document with an embedded index of 7
on its only tab; the extracted tab sits in window 1 with tab index 1 and both
indices are at least 1, and rewriting the embedded index changes nothing. -/
theorem claimC1_sequential_indices_witness :
    (Tab.mk 1 1 "A" "https://a.com" 1 "1" false false
        ∈ extractTabs (SessionDoc.mk [SessionWindow.mk [SessionTab.mk (some 7)
            [NavEntry.mk ("A") ("https://a.com")] (some 1) (some false) (some false)]]))
    ∧ (1 ≤ (Tab.mk 1 1 "A" "https://a.com" 1 "1" false false).window_index
        ∧ 1 ≤ (Tab.mk 1 1 "A" "https://a.com" 1 "1" false false).tab_index)
    ∧ extractTabs (reindexDoc (fun _ => none)
        (SessionDoc.mk [SessionWindow.mk [SessionTab.mk (some 7)
            [NavEntry.mk ("A") ("https://a.com")] (some 1) (some false) (some false)]]))
      = extractTabs (SessionDoc.mk [SessionWindow.mk [SessionTab.mk (some 7)
            [NavEntry.mk ("A") ("https://a.com")] (some 1) (some false) (some false)]]) := by
  refine ⟨by decide, ?_, ?_⟩
  · exact (claimC1_sequential_indices (SessionDoc.mk [SessionWindow.mk
      [SessionTab.mk (some 7) [NavEntry.mk ("A") ("https://a.com")] (some 1)
        (some false) (some false)]])).1
      (Tab.mk 1 1 "A" "https://a.com" 1 "1" false false) (by decide)
  · exact (claimC1_sequential_indices (SessionDoc.mk [SessionWindow.mk
      [SessionTab.mk (some 7) [NavEntry.mk ("A") ("https://a.com")] (some 1)
        (some false) (some false)]])).2.1 (fun _ => none)

theorem tabsOfWindow_length_aux (w : Nat) (sts : List SessionTab) :
    ∀ k : Nat, ((withIdxFrom k sts).filterMap (fun p => mkTab w p.1 p.2)).length
      = (sts.filter (fun s => !s.entries.isEmpty)).length := by
  induction sts with
  | nil => intro k; rfl
  | cons st rest ih =>
    intro k
    by_cases he : st.entries = []
    · have hn : mkTab w k st = none := (mkTab_eq_none_iff w k st).mpr he
      simp [withIdxFrom, List.filterMap_cons, hn, List.filter_cons, he, ih (k + 1)]
    · have hn : mkTab w k st ≠ none := fun hc => he ((mkTab_eq_none_iff w k st).mp hc)
      cases hm : mkTab w k st with
      | none => exact absurd hm hn
      | some t =>
        simp [withIdxFrom, List.filterMap_cons, hm, List.filter_cons, he, ih (k + 1)]

/-- Claim C5: a constructed Tab's title and URL come from the last element of
its entry's entries sequence, and a tab entry with an empty entries sequence
contributes zero Tab records. -/
theorem claimC5_last_entry (w i : Nat) (st : SessionTab) :
    (mkTab w i st = none ↔ st.entries = [])
    ∧ (∀ (e : NavEntry) (t : Tab), st.entries.getLast? = some e →
        mkTab w i st = some t → t.title = e.title ∧ t.url = e.url)
    ∧ (∀ sts : List SessionTab, (tabsOfWindow w sts).length
        = (sts.filter (fun s => !s.entries.isEmpty)).length) := by
  refine ⟨mkTab_eq_none_iff w i st, ?_, ?_⟩
  · intro e t hlast hmk
    obtain ⟨-, -, e', hlast', ht, hu⟩ := mkTab_some_fields _ _ _ _ hmk
    rw [hlast] at hlast'
    injection hlast' with he'
    rw [← he'] at ht hu
    exact ⟨ht, hu⟩
  · intro sts
    exact tabsOfWindow_length_aux w sts 1

/-- Witness for C5: applied to a placeholder tab with no entries (skipped) and
to a tab with two navigation entries (title and URL taken from the last). -/
theorem claimC5_last_entry_witness :
    mkTab 1 1 emptyEntriesTab = none
    ∧ ((Tab.mk 1 2 "B" "https://b.com" 0 "" false false).title = "B"
        ∧ (Tab.mk 1 2 "B" "https://b.com" 0 "" false false).url = "https://b.com")
    ∧ (tabsOfWindow 1 [emptyEntriesTab, twoEntriesTab]).length
        = ([emptyEntriesTab, twoEntriesTab].filter (fun s => !s.entries.isEmpty)).length :=
  ⟨(claimC5_last_entry 1 1 emptyEntriesTab).1.mpr rfl,
   (claimC5_last_entry 1 2 twoEntriesTab).2.1 (NavEntry.mk ("B") ("https://b.com"))
     (Tab.mk 1 2 "B" "https://b.com" 0 "" false false) (by decide) (by decide),
   (claimC5_last_entry 1 1 emptyEntriesTab).2.2 [emptyEntriesTab, twoEntriesTab]⟩

/-- Claim C6: a structurally valid document that yields zero tabs fails with
NoTabsFoundError (in particular the document with an empty windows array),
an error kind distinct from the SessionDataError of a malformed document. -/
theorem claimC6_no_tabs_error :
    parseSession none = Except.error ExtractorError.sessionDataError
    ∧ (∀ s : SessionDoc, extractTabs s = [] →
        parseSession (some s) = Except.error ExtractorError.noTabsFoundError)
    ∧ parseSession (some (SessionDoc.mk []))
        = Except.error ExtractorError.noTabsFoundError
    ∧ ExtractorError.noTabsFoundError ≠ ExtractorError.sessionDataError := by
  refine ⟨rfl, ?_, rfl, by decide⟩
  intro s hs
  unfold parseSession
  simp [hs]

/-- Witness for C6: a document with one window holding only a placeholder tab
parses structurally but yields zero tabs, hence NoTabsFoundError. -/
theorem claimC6_no_tabs_error_witness :
    extractTabs (SessionDoc.mk [SessionWindow.mk [emptyEntriesTab]]) = []
    ∧ parseSession (some (SessionDoc.mk [SessionWindow.mk [emptyEntriesTab]]))
        = Except.error ExtractorError.noTabsFoundError :=
  ⟨rfl, claimC6_no_tabs_error.2.1
    (SessionDoc.mk [SessionWindow.mk [emptyEntriesTab]]) rfl⟩

theorem mem_firstSeen {α : Type} [DecidableEq α] (l : List α) (x : α) :
    x ∈ firstSeen l ↔ x ∈ l := by
  induction l using firstSeen.induct with
  | case1 => simp [firstSeen]
  | case2 a as ih =>
    rw [firstSeen]
    simp only [List.mem_cons, ih, List.mem_filter]
    constructor
    · rintro (h | ⟨h, -⟩)
      · exact Or.inl h
      · exact Or.inr h
    · rintro (h | h)
      · exact Or.inl h
      · by_cases hx : x = a
        · exact Or.inl hx
        · exact Or.inr ⟨h, by simp [hx]⟩

theorem nodup_firstSeen {α : Type} [DecidableEq α] (l : List α) :
    (firstSeen l).Nodup := by
  induction l using firstSeen.induct with
  | case1 => simp [firstSeen]
  | case2 a as ih =>
    rw [firstSeen]
    refine List.nodup_cons.mpr ⟨?_, ih⟩
    intro hmem
    have := (mem_firstSeen _ _).mp hmem
    rcases List.mem_filter.mp this with ⟨-, hne⟩
    simp at hne

theorem dedup_append_singleton {α : Type} [DecidableEq α] (a : α) :
    ∀ ys : List α, (ys ++ [a]).dedup = (ys.filter (fun b => b != a)).dedup ++ [a] := by
  intro ys
  induction ys with
  | nil => simp
  | cons b ys ih =>
    by_cases hba : b = a
    · subst hba
      rw [List.cons_append, List.dedup_cons_of_mem (by simp), ih]
      have hf : (b :: ys).filter (fun c => c != b) = ys.filter (fun c => c != b) := by
        simp [List.filter_cons]
      rw [hf]
    · by_cases hby : b ∈ ys
      · rw [List.cons_append, List.dedup_cons_of_mem (by simp [hby]), ih]
        have hf : (b :: ys).filter (fun c => c != a) = b :: ys.filter (fun c => c != a) := by
          simp [List.filter_cons, hba]
        rw [hf, List.dedup_cons_of_mem
          (List.mem_filter.mpr ⟨hby, by simp [hba]⟩)]
      · rw [List.cons_append,
          List.dedup_cons_of_not_mem (by simp [hby, hba]), ih]
        have hf : (b :: ys).filter (fun c => c != a) = b :: ys.filter (fun c => c != a) := by
          simp [List.filter_cons, hba]
        rw [hf, List.dedup_cons_of_not_mem
          (fun hc => hby (List.mem_filter.mp hc).1)]
        rfl

theorem firstSeen_eq_reverse_dedup_reverse {α : Type} [DecidableEq α] :
    ∀ l : List α, firstSeen l = (l.reverse.dedup).reverse := by
  intro l
  induction l using firstSeen.induct with
  | case1 => simp [firstSeen]
  | case2 a as ih =>
    rw [firstSeen, List.reverse_cons, dedup_append_singleton a as.reverse,
      List.reverse_append, List.filter_reverse]
    simp only [List.reverse_cons, List.reverse_nil, List.nil_append,
      List.cons_append]
    rw [ih]

/-- Claim C7: statistics satisfy visible + hidden = total (visible = total -
hidden), and the reported domains are exactly the distinct domains derived
from the tabs, without duplicates. -/
theorem claimC7_statistics (tabs : List Tab) :
    (get_statistics tabs).visible_tabs + (get_statistics tabs).hidden_tabs
        = (get_statistics tabs).total_tabs
    ∧ (get_statistics tabs).visible_tabs
        = (get_statistics tabs).total_tabs - (get_statistics tabs).hidden_tabs
    ∧ ((get_statistics tabs).domains).Nodup
    ∧ ∀ d : String, d ∈ (get_statistics tabs).domains
        ↔ ∃ t ∈ tabs, Tab.domain t = some d := by
  have hpart := @List.length_eq_length_filter_add Tab tabs (fun t => t.hidden)
  refine ⟨?_, ?_, ?_, ?_⟩
  · show (tabs.filter (fun t => !t.hidden)).length
        + (tabs.filter (fun t => t.hidden)).length = tabs.length
    omega
  · show (tabs.filter (fun t => !t.hidden)).length
        = tabs.length - (tabs.filter (fun t => t.hidden)).length
    omega
  · exact nodup_firstSeen _
  · intro d
    show d ∈ firstSeen (tabs.filterMap Tab.domain) ↔ _
    rw [mem_firstSeen, List.mem_filterMap]

/-- Claim C8: grouping into windows is a stable partition by window index:
first-seen order of indices (characterised through reverse-deduplication,
which keeps last occurrences), no duplicated index, each window holding
exactly the tabs bearing its index in their original relative order, with the
empty input yielding the empty output. -/
theorem claimC8_grouping :
    get_windows [] = []
    ∧ ∀ tabs : List Tab,
        ((get_windows tabs).map (fun W => W.window_index)
            = ((tabs.map (fun t => t.window_index)).reverse.dedup).reverse)
        ∧ ((get_windows tabs).map (fun W => W.window_index)).Nodup
        ∧ (∀ W ∈ get_windows tabs,
            W.tabs = tabs.filter (fun t => t.window_index == W.window_index))
        ∧ (∀ t ∈ tabs, ∃ W ∈ get_windows tabs,
            W.window_index = t.window_index ∧ t ∈ W.tabs) := by
  refine ⟨by unfold get_windows; rw [show List.map (fun t => t.window_index)
    ([] : List Tab) = [] from rfl, firstSeen]; rfl, ?_⟩
  intro tabs
  have hmap : (get_windows tabs).map (fun W => W.window_index)
      = firstSeen (tabs.map (fun t => t.window_index)) := by
    unfold get_windows
    rw [List.map_map]
    have hid : ((fun W => W.window_index) ∘ (fun w =>
        Window.mk w (tabs.filter (fun t => t.window_index == w)))) = id := rfl
    rw [hid, List.map_id]
  refine ⟨?_, ?_, ?_, ?_⟩
  · rw [hmap]
    exact firstSeen_eq_reverse_dedup_reverse _
  · rw [hmap]
    exact nodup_firstSeen _
  · intro W hW
    unfold get_windows at hW
    rcases List.mem_map.mp hW with ⟨w, hw, hWeq⟩
    subst hWeq
    rfl
  · intro t ht
    have hw : t.window_index ∈ firstSeen (tabs.map (fun t => t.window_index)) :=
      (mem_firstSeen _ _).mpr (List.mem_map.mpr ⟨t, ht, rfl⟩)
    refine ⟨Window.mk t.window_index
      (tabs.filter (fun t' => t'.window_index == t.window_index)), ?_, rfl, ?_⟩
    · show _ ∈ get_windows tabs
      unfold get_windows
      exact List.mem_map.mpr ⟨t.window_index, hw, rfl⟩
    · exact List.mem_filter.mpr ⟨ht, by simp⟩

/-- Witness for C8: the specification's example: tabs with window indices
1, 2, 1 group into windows ordered 1, 2, window 1 holding its two tabs in
their original relative order. -/
theorem claimC8_grouping_witness :
    (Tab.mk 1 1 "T1" "https://example1.com" 0 "" false false)
        ∈ [Tab.mk 1 1 "T1" "https://example1.com" 0 "" false false,
           Tab.mk 2 1 "T2" "https://example2.com" 0 "" false false,
           Tab.mk 1 2 "T3" "https://example3.com" 0 "" false false]
    ∧ (∃ W ∈ get_windows
          [Tab.mk 1 1 "T1" "https://example1.com" 0 "" false false,
           Tab.mk 2 1 "T2" "https://example2.com" 0 "" false false,
           Tab.mk 1 2 "T3" "https://example3.com" 0 "" false false],
        W.window_index = (Tab.mk 1 1 "T1" "https://example1.com" 0 "" false
          false).window_index
        ∧ (Tab.mk 1 1 "T1" "https://example1.com" 0 "" false false) ∈ W.tabs)
    ∧ (get_windows
          [Tab.mk 1 1 "T1" "https://example1.com" 0 "" false false,
           Tab.mk 2 1 "T2" "https://example2.com" 0 "" false false,
           Tab.mk 1 2 "T3" "https://example3.com" 0 "" false false]).map
        (fun W => W.window_index) = [1, 2] := by
  refine ⟨by decide, ?_, ?_⟩
  · exact (claimC8_grouping.2
      [Tab.mk 1 1 "T1" "https://example1.com" 0 "" false false,
       Tab.mk 2 1 "T2" "https://example2.com" 0 "" false false,
       Tab.mk 1 2 "T3" "https://example3.com" 0 "" false false]).2.2.2
      (Tab.mk 1 1 "T1" "https://example1.com" 0 "" false false) (by decide)
  · exact ((claimC8_grouping.2
      [Tab.mk 1 1 "T1" "https://example1.com" 0 "" false false,
       Tab.mk 2 1 "T2" "https://example2.com" 0 "" false false,
       Tab.mk 1 2 "T3" "https://example3.com" 0 "" false false]).1).trans (by decide)

/-- Claim C9: a Tab's derived domain is the network-location component of its
URL: the GitHub example URL yields github.com, and a URL with no parseable
host yields an absent domain; any present domain is non-empty. -/
theorem claimC9_domain :
    (∀ t : Tab, Tab.domain t = extractDomain t.url)
    ∧ extractDomain ("https://github.com/user/repo") = some ("github.com")
    ∧ extractDomain ("not a url") = none
    ∧ ∀ s : String, extractDomain s = none
        ∨ ∃ h, extractDomain s = some h ∧ 0 < h.length := by
  refine ⟨fun t => rfl, by decide, by decide, ?_⟩
  intro s
  cases hs : afterScheme s.toList with
  | none =>
    refine Or.inl ?_
    unfold extractDomain
    rw [hs]
  | some rest =>
    have hred : extractDomain s = hostOf rest := by
      unfold extractDomain
      rw [hs]
    rw [hred]
    unfold hostOf
    cases hh : rest.takeWhile (fun c => !(c == '/' || c == '?' || c == '#')) with
    | nil => exact Or.inl rfl
    | cons c cs =>
      refine Or.inr ⟨String.mk (c :: cs), rfl, ?_⟩
      show 0 < (String.mk (c :: cs)).length
      simp [String.length]

/-- Claim C10: a freshly constructed extractor has no profile path and no
recovery file, and when the platform's Firefox directory does not exist the
private locator returns the pair of absent values instead of raising. -/
theorem claimC10_locator :
    (FirefoxTabExtractor.make none).profile_path = none
    ∧ (FirefoxTabExtractor.make none).recovery_file = none
    ∧ ∀ fs : FileSystem, fs.dirExists firefoxRoot = false →
        findFirefoxProfile fs = (none, none) := by
  refine ⟨rfl, rfl, ?_⟩
  intro fs h
  simp [findFirefoxProfile, h]

/-- Witness for C10: a filesystem with no directories at all makes the locator
return the pair of absent values. -/
theorem claimC10_locator_witness :
    (FileSystem.mk (fun _ => false) (fun _ => [])).dirExists firefoxRoot = false
    ∧ findFirefoxProfile (FileSystem.mk (fun _ => false) (fun _ => []))
        = (none, none) :=
  ⟨rfl, claimC10_locator.2.2 (FileSystem.mk (fun _ => false) (fun _ => [])) rfl⟩
